import Mathlib

/-!
Shallow embedding of the perimeter/infill toolpath subsystem of the
BambuStudio slicer, covering:

* the `Fill` pattern class hierarchy of `src/libslic3r/Fill/FillRectilinear.hpp`
  (virtual methods `is_self_crossing`, `no_sort`, `has_consistent_pattern`,
  `_layer_angle` and their overrides);
* the `PerimeterGenerator` constructor of `PerimeterGenerator.hpp`
  (initialisation of `m_scaled_resolution`);
* `GCode::LayerToPrint` of `GCode.hpp` (`layer()`, `object()`, `print_z()`);
* spec-level models of `PerimeterGenerator::process_classic` and
  `GCode::smooth_speed_discontinuity_area`, whose bodies live in translation
  units outside the excerpt.

Machine floats (`float`, `double`, `coordf_t`) are modelled as `ℚ`; the
properties proved here concern control flow and exact arithmetic identities,
not rounding.
-/

namespace Slic3r

/-- The concrete fill pattern classes declared in `FillRectilinear.hpp`.
`Rectilinear` is `FillRectilinear`, etc.; `MonotonicLineWGapFill` derives
directly from the abstract base `Fill`, every other class here derives from
`FillRectilinear` (which itself derives from `Fill`). -/
inductive FillType where
  | Rectilinear
  | AlignedRectilinear
  | Monotonic
  | MonotonicLine
  | Grid
  | Triangles
  | Stars
  | Cubic
  | SupportBase
  | MonotonicLineWGapFill
  | ZigZag
  | CrossZag
  | LockedZag
  deriving DecidableEq, Repr

namespace FillType

/-- The C++ inheritance chain of each class, the class itself first, ending at
its most derived ancestor declared in this header (the abstract base `Fill`
is not listed; lookups that fall through the whole chain are unresolved
overrides, answered by the base class). -/
def ancestors : FillType → List FillType
  | Rectilinear           => [Rectilinear]
  | AlignedRectilinear    => [AlignedRectilinear, Rectilinear]
  | Monotonic             => [Monotonic, Rectilinear]
  | MonotonicLine         => [MonotonicLine, Rectilinear]
  | Grid                  => [Grid, Rectilinear]
  | Triangles             => [Triangles, Rectilinear]
  | Stars                 => [Stars, Rectilinear]
  | Cubic                 => [Cubic, Rectilinear]
  | SupportBase           => [SupportBase, Rectilinear]
  | MonotonicLineWGapFill => [MonotonicLineWGapFill]
  | ZigZag                => [ZigZag, Rectilinear]
  | CrossZag              => [CrossZag, Rectilinear]
  | LockedZag             => [LockedZag, Rectilinear]

/-- The `is_self_crossing` overrides written in `FillRectilinear.hpp`:
`FillRectilinear` returns `false`, `FillGrid`/`FillTriangles`/`FillStars`/
`FillCubic` return `true`, `FillMonotonicLineWGapFill` returns `false`;
no other class in this header overrides it. -/
def isSelfCrossingOverride : FillType → Option Bool
  | Rectilinear           => some false
  | Grid                  => some true
  | Triangles             => some true
  | Stars                 => some true
  | Cubic                 => some true
  | MonotonicLineWGapFill => some false
  | _                     => none

/-- The `no_sort` overrides written in `FillRectilinear.hpp`:
`FillMonotonic`, `FillMonotonicLine` and `FillMonotonicLineWGapFill`
return `true`; no other class in this header overrides it. -/
def noSortOverride : FillType → Option Bool
  | Monotonic             => some true
  | MonotonicLine         => some true
  | MonotonicLineWGapFill => some true
  | _                     => none

/-- The `has_consistent_pattern` overrides written in `FillRectilinear.hpp`:
`FillZigZag`, `FillCrossZag` and `FillLockedZag` return `true`;
no other class in this header overrides it. -/
def hasConsistentPatternOverride : FillType → Option Bool
  | ZigZag    => some true
  | CrossZag  => some true
  | LockedZag => some true
  | _         => none

/-- The `_layer_angle` overrides written in `FillRectilinear.hpp`:
`FillAlignedRectilinear`, `FillGrid`, `FillTriangles`, `FillStars`,
`FillCubic` and `FillSupportBase` all return the constant `0.f`
("always generate infill at the same angle" / "the grid fill will keep the
angle constant between the layers"); no other class in this header
overrides it. The returned `float` is modelled as `ℚ`. -/
def layerAngleOverride : FillType → Option (Nat → ℚ)
  | AlignedRectilinear => some fun _ => 0
  | Grid               => some fun _ => 0
  | Triangles          => some fun _ => 0
  | Stars              => some fun _ => 0
  | Cubic              => some fun _ => 0
  | SupportBase        => some fun _ => 0
  | _                  => none

/-- C++ virtual dispatch: the first override found walking up the
inheritance chain, `none` when every class in this header inherits the
abstract base `Fill`'s implementation. -/
def resolve (ovr : FillType → Option α) (t : FillType) : Option α :=
  t.ancestors.findSome? ovr

/-- `is_self_crossing()` as dispatched on an object of dynamic type `t`. -/
def is_self_crossing (t : FillType) : Option Bool :=
  resolve isSelfCrossingOverride t

/-- `no_sort()` as dispatched on an object of dynamic type `t`. -/
def no_sort (t : FillType) : Option Bool :=
  resolve noSortOverride t

/-- `has_consistent_pattern()` as dispatched on an object of dynamic type `t`. -/
def has_consistent_pattern (t : FillType) : Option Bool :=
  resolve hasConsistentPatternOverride t

/-- `_layer_angle(idx)` as dispatched on an object of dynamic type `t`. -/
def layer_angle (t : FillType) (idx : Nat) : Option ℚ :=
  (resolve layerAngleOverride t).map fun f => f idx

end FillType

/-- Modelled from the spec: print objects are external collaborators of this
excerpt; only an identity is needed here. -/
structure PrintObject where
  id : Nat
  deriving DecidableEq, Repr

/-- Modelled from the spec: the `Layer` class is upstream of this excerpt.
`LayerToPrint` "pairs an object layer and/or support layer sharing the same
print height (`print_z`); owns no geometry, only references", so a layer is
modelled by its print height and the print object that owns it (what
`Layer::object()` returns). `coordf_t` (`double`) is modelled as `ℚ`. -/
structure Layer where
  print_z : ℚ
  object : PrintObject
  deriving DecidableEq, Repr

namespace GCode

/-- `GCode::LayerToPrint` from `GCode.hpp`: an object layer and/or a support
layer of the same `PrintObject` at the same `print_z`. The C++ members are
nullable pointers, modelled as `Option`; the default constructor sets both
to `nullptr`. (`original_object` plays no role in the claims and is
omitted.) A C++ `SupportLayer` is a `Layer`. -/
structure LayerToPrint where
  object_layer : Option Layer := none
  support_layer : Option Layer := none
  deriving DecidableEq, Repr

namespace LayerToPrint

/-- `LayerToPrint::layer()`: `object_layer` when non-null, else
`support_layer` when non-null, else `nullptr`. -/
def layer (l : LayerToPrint) : Option Layer :=
  match l.object_layer with
  | some ol => some ol
  | none =>
    match l.support_layer with
    | some sl => some sl
    | none => none

/-- `LayerToPrint::object()`:
`(this->layer() != nullptr) ? this->layer()->object() : nullptr`. -/
def object (l : LayerToPrint) : Option PrintObject :=
  match l.layer with
  | some ly => some ly.object
  | none => none

/-- The local `sum_z` accumulated by `LayerToPrint::print_z()`: starts at
`0.`, adds `object_layer->print_z` and `support_layer->print_z` for the
non-null members. -/
def sum_z (l : LayerToPrint) : ℚ :=
  (match l.object_layer with | some ol => ol.print_z | none => 0) +
  (match l.support_layer with | some sl => sl.print_z | none => 0)

/-- The local `count` accumulated by `LayerToPrint::print_z()`: the number
of non-null members among `object_layer` and `support_layer`. -/
def layer_count (l : LayerToPrint) : Nat :=
  (match l.object_layer with | some _ => 1 | none => 0) +
  (match l.support_layer with | some _ => 1 | none => 0)

/-- `LayerToPrint::print_z()`: `sum_z / count`. In C++ this is a floating
division whose divisor is the integer `count`; `ℚ` gives division by zero
the junk value `0` where C++ produces a NaN, and the theorems below only
use this function under `count ≠ 0`. -/
def print_z (l : LayerToPrint) : ℚ :=
  l.sum_z / (l.layer_count : ℚ)

end LayerToPrint

end GCode

/-- `EPSILON` from `libslic3r.h` (not part of the excerpt): the upstream
tolerance constant `1e-4`. -/
def EPSILON : ℚ := 1 / 10000

/-- `scaled<double>` from `libslic3r.h` (not part of the excerpt): conversion
from millimetres to scaled integer-grid units, a division by
`SCALING_FACTOR = 1e-6`, i.e. multiplication by `10^6`. -/
def scaled (x : ℚ) : ℚ := x * 1000000

namespace PerimeterGenerator

/-- The initialiser of `PerimeterGenerator::m_scaled_resolution` from the
`PerimeterGenerator` constructor, applied to `print_config->resolution.value`:
`scaled<double>(resolution > EPSILON ? resolution : EPSILON)`. -/
def m_scaled_resolution (resolution : ℚ) : ℚ :=
  scaled (if resolution > EPSILON then resolution else EPSILON)

/-- The `PerimeterGenerator` constructor restricted to the state the claims
are about. Its C++ body is a member-initialiser list with no conditional
failure path: construction always succeeds; this is a total function. -/
structure State where
  layer_id : Int
  scaled_resolution : ℚ
  deriving DecidableEq, Repr

/-- The `PerimeterGenerator` constructor as a (total) function of the
configured resolution: sets `layer_id(-1)` and
`m_scaled_resolution(scaled<double>(resolution > EPSILON ? resolution : EPSILON))`. -/
def construct (resolution : ℚ) : State :=
  { layer_id := -1, scaled_resolution := m_scaled_resolution resolution }

end PerimeterGenerator

/-- A polygon in scaled integer coordinates, as exchanged with the external
geometry kernel. -/
abbrev Polygon := List (Int × Int)

namespace PerimeterGenerator

/-- The configuration fields of classic perimeter generation the model
needs: configured wall count and the loop spacings derived from the
external and internal perimeter flows. -/
structure ClassicConfig where
  wall_loops : Nat
  ext_perimeter_spacing : ℚ
  perimeter_spacing : ℚ
  deriving DecidableEq, Repr

/-- The outputs of classic perimeter generation: the perimeter loops from
outermost to innermost, and the residual surfaces left for infill. -/
structure ClassicResult where
  loops : List Polygon
  fill_surfaces : List Polygon
  deriving DecidableEq, Repr

/-- Modelled from the spec: the inner-wall loop of
`PerimeterGenerator::process_classic` (its body is not part of the excerpt;
only the declaration is). Per spec section 4.1, each wall is obtained by
insetting the previous region by the loop spacing through the external
geometry kernel `inset` (spec section 2 treats the polygon kernel as an
external leaf dependency, passed here as a function); generation truncates
gracefully when the inset result is empty ("fewer if S is too small"), and
whatever region remains after the configured walls is the residual handed
back as fill surfaces. Returns (loops generated, residual region). -/
def classicLoop (inset : List Polygon → ℚ → List Polygon) (spacing : ℚ) :
    Nat → List Polygon → List Polygon × List Polygon
  | 0, region => ([], region)
  | i + 1, region =>
    let next := inset region spacing
    if next.isEmpty then ([], region)
    else
      let rec_result := classicLoop inset spacing i next
      (next ++ rec_result.1, rec_result.2)

/-- Modelled from the spec: `PerimeterGenerator::process_classic` (body not
in the excerpt). The outermost loop is inset using the external-perimeter
spacing, the remaining `wall_loops - 1` walls use the perimeter spacing
(spec section 4.1 step 1); with zero walls, or when the first inset is
already empty, the input slices themselves remain as fill surfaces. -/
def process_classic (inset : List Polygon → ℚ → List Polygon)
    (cfg : ClassicConfig) (slices : List Polygon) : ClassicResult :=
  match cfg.wall_loops with
  | 0 => { loops := [], fill_surfaces := slices }
  | n + 1 =>
    let first := inset slices cfg.ext_perimeter_spacing
    if first.isEmpty then { loops := [], fill_surfaces := slices }
    else
      let rest := classicLoop inset cfg.perimeter_spacing n first
      { loops := first ++ rest.1, fill_surfaces := rest.2 }

/-- Big-step run relation for the inner-wall loop: `ClassicRun inset spacing
i region (loops, residual)` states that one execution of the wall loop,
asked for `i` further walls starting from `region`, produced `loops` and
left `residual`. Mirrors `classicLoop` constructor by constructor; its
determinism is the content of the idempotence claim. -/
inductive ClassicRun (inset : List Polygon → ℚ → List Polygon) (spacing : ℚ) :
    Nat → List Polygon → List Polygon × List Polygon → Prop where
  | done (region : List Polygon) :
      ClassicRun inset spacing 0 region ([], region)
  | truncate (i : Nat) (region : List Polygon)
      (hEmpty : (inset region spacing).isEmpty = true) :
      ClassicRun inset spacing (i + 1) region ([], region)
  | step (i : Nat) (region : List Polygon) (more residual : List Polygon)
      (hNonEmpty : (inset region spacing).isEmpty = false)
      (hrec : ClassicRun inset spacing i (inset region spacing) (more, residual)) :
      ClassicRun inset spacing (i + 1) region (inset region spacing ++ more, residual)

/-- Big-step run relation for `process_classic` as a whole: one execution on
`slices` under `cfg` produced the result. -/
inductive ProcessClassicRun (inset : List Polygon → ℚ → List Polygon)
    (cfg : ClassicConfig) (slices : List Polygon) : ClassicResult → Prop where
  | zero (hZero : cfg.wall_loops = 0) :
      ProcessClassicRun inset cfg slices { loops := [], fill_surfaces := slices }
  | empty (n : Nat) (hWalls : cfg.wall_loops = n + 1)
      (hEmpty : (inset slices cfg.ext_perimeter_spacing).isEmpty = true) :
      ProcessClassicRun inset cfg slices { loops := [], fill_surfaces := slices }
  | walls (n : Nat) (more residual : List Polygon) (hWalls : cfg.wall_loops = n + 1)
      (hNonEmpty : (inset slices cfg.ext_perimeter_spacing).isEmpty = false)
      (hrun : ClassicRun inset cfg.perimeter_spacing n
        (inset slices cfg.ext_perimeter_spacing) (more, residual)) :
      ProcessClassicRun inset cfg slices
        { loops := inset slices cfg.ext_perimeter_spacing ++ more, fill_surfaces := residual }

end PerimeterGenerator

namespace GCode

/-- An extrusion path as seen by the speed shaper: its length and its target
speed (both `double` in C++, modelled as `ℚ`). -/
structure SpeedPath where
  len : ℚ
  speed : ℚ
  deriving DecidableEq, Repr

/-- The chain of intermediate speeds of one interpolation zone: `k` speeds
`vp + step, vp + 2·step, …, vp + k·step` easing from the previous speed `vp`
toward the discontinuous target. -/
def rampSpeeds (step : ℚ) (vp : ℚ) : Nat → List ℚ
  | 0 => []
  | k + 1 => (vp + step) :: rampSpeeds step (vp + step) k

/-- Modelled from the spec: the walk of `GCode::smooth_speed_discontinuity_area`
over the tail of the path list, carrying the previous segment's speed `vp`
(the bodies of `smooth_speed_discontinuity_area` and
`split_and_mapping_speed` are not in the excerpt; only declarations are).
Per spec section 4.3, wherever the target speed changes by more than the
configured delta `d` between adjacent segments, an interpolation zone of
intermediate speeds is synthesised by splitting a piece — bounded by
`maxSmooth` — off the following segment and assigning it speeds that step
from the previous speed to the new one in increments of at most `d`
(a trapezoidal-like ease rather than a step function); segments already
within `d` of their predecessor are passed through unchanged. -/
def smooth_from (d maxSmooth : ℚ) (vp : ℚ) : List SpeedPath → List SpeedPath
  | [] => []
  | q :: rest =>
    if |q.speed - vp| ≤ d then q :: smooth_from d maxSmooth q.speed rest
    else
      let n := ⌈|q.speed - vp| / d⌉₊
      let total := min maxSmooth (q.len / 2)
      let step := (q.speed - vp) / (n : ℚ)
      ((rampSpeeds step vp (n - 1)).map fun v => ⟨total / ((n : ℚ) - 1), v⟩)
        ++ ⟨q.len - total, q.speed⟩ :: smooth_from d maxSmooth q.speed rest

/-- Modelled from the spec: `GCode::smooth_speed_discontinuity_area` — the
linear transform over an ordered path list that smooths speed
discontinuities. The first path keeps its speed (there is no predecessor to
ease from); the rest of the list is walked by `smooth_from`. -/
def smooth_speed_discontinuity_area (d maxSmooth : ℚ) :
    List SpeedPath → List SpeedPath
  | [] => []
  | p :: rest => p :: smooth_from d maxSmooth p.speed rest

/-- The post-smoothing invariant of spec section 8: walking the list from
previous speed `vp`, no segment's speed differs from its predecessor's by
more than `d`. -/
def smoothedFrom (d : ℚ) (vp : ℚ) : List SpeedPath → Prop
  | [] => True
  | q :: rest => |q.speed - vp| ≤ d ∧ smoothedFrom d q.speed rest

end GCode

end Slic3r

namespace Slic3r

open FillType

/-- C1, counterexample. The claim says `FillSupportBase` reports
`is_self_crossing() = true`; in the header `FillSupportBase` declares no
such override, so dispatch resolves to `FillRectilinear::is_self_crossing`,
which returns `false` — not `true`. -/
theorem supportBase_self_crossing_not_true :
    ¬ is_self_crossing FillType.SupportBase = some true := by decide

/-- C1, amended. `FillSupportBase` does not override `is_self_crossing`;
it inherits `FillRectilinear`'s implementation and reports `false`, unlike
the other multi-sweep patterns. -/
theorem supportBase_self_crossing_inherited_false :
    is_self_crossing FillType.SupportBase = some false ∧
      isSelfCrossingOverride FillType.SupportBase = none := by decide

/-- C3, counterexample. The claim says that for every pattern
`_layer_angle` is not constant in the layer index, so that consecutive
layers get different orientations; but `FillGrid::_layer_angle` returns the
constant `0.f`, so layers 0 and 1 get the same angle. -/
theorem grid_layer_angle_constant_on_consecutive_layers :
    layer_angle FillType.Grid 0 = layer_angle FillType.Grid 1 ∧
      layer_angle FillType.Grid 0 = some 0 := by
  constructor <;> rfl

/-- C3, amended. Not every pattern varies its base angle with the layer
index: `FillAlignedRectilinear`, `FillGrid`, `FillTriangles`, `FillStars`,
`FillCubic` and `FillSupportBase` all override `_layer_angle` to the
constant `0`, keeping the orientation identical across layers for those
patterns. -/
theorem overriding_patterns_layer_angle_constant_zero (idx : Nat) :
    layer_angle FillType.AlignedRectilinear idx = some 0 ∧
    layer_angle FillType.Grid idx = some 0 ∧
    layer_angle FillType.Triangles idx = some 0 ∧
    layer_angle FillType.Stars idx = some 0 ∧
    layer_angle FillType.Cubic idx = some 0 ∧
    layer_angle FillType.SupportBase idx = some 0 := by
  refine ⟨?_, ?_, ?_, ?_, ?_, ?_⟩ <;> rfl

/-- C4. `is_self_crossing()` dispatches to `true` for the multi-sweep
patterns `FillGrid`, `FillTriangles`, `FillStars` and `FillCubic`, and to
`false` for `FillRectilinear` — hence also for its monotonic derivatives
`FillMonotonic` and `FillMonotonicLine`, which inherit it — and for
`FillMonotonicLineWGapFill`. -/
theorem self_crossing_flags_by_pattern :
    is_self_crossing FillType.Grid = some true ∧
    is_self_crossing FillType.Triangles = some true ∧
    is_self_crossing FillType.Stars = some true ∧
    is_self_crossing FillType.Cubic = some true ∧
    is_self_crossing FillType.Rectilinear = some false ∧
    is_self_crossing FillType.Monotonic = some false ∧
    is_self_crossing FillType.MonotonicLine = some false ∧
    is_self_crossing FillType.MonotonicLineWGapFill = some false := by decide

/-- C5. `has_consistent_pattern()` returns `true` for each of the zig-zag
variants `FillZigZag`, `FillCrossZag` and `FillLockedZag`. -/
theorem consistent_pattern_zag_variants :
    has_consistent_pattern FillType.ZigZag = some true ∧
    has_consistent_pattern FillType.CrossZag = some true ∧
    has_consistent_pattern FillType.LockedZag = some true := by decide

/-- C10. Every monotonic variant — `FillMonotonic`, `FillMonotonicLine`
and `FillMonotonicLineWGapFill` — overrides `no_sort()` to `true`, while
`FillRectilinear` declares no `no_sort` override at all (dispatch on it
falls through to the abstract base `Fill`). -/
theorem no_sort_monotonic_variants :
    no_sort FillType.Monotonic = some true ∧
    no_sort FillType.MonotonicLine = some true ∧
    no_sort FillType.MonotonicLineWGapFill = some true ∧
    no_sort FillType.Rectilinear = none := by decide

/-- C2, counterexample. The claim says a resolution ≤ 0 is a hard stop and
construction does not silently proceed with a substituted value; but the
constructor is a plain member-initialiser list with no failure path, and at
`resolution = 0 ≤ 0` it completes, setting `m_scaled_resolution` to
`scaled(EPSILON)` — a substituted value different from `scaled(0)`. -/
theorem construct_zero_resolution_substitutes_epsilon :
    PerimeterGenerator.construct 0 =
      { layer_id := -1, scaled_resolution := scaled EPSILON } ∧
      scaled EPSILON ≠ scaled 0 := by
  constructor
  · norm_num [PerimeterGenerator.construct, PerimeterGenerator.m_scaled_resolution, EPSILON]
  · intro h
    simp [scaled, EPSILON] at h

/-- C2, amended. Constructing the perimeter generator with
`print_config->resolution ≤ 0` silently proceeds: the constructor always
succeeds, substituting `EPSILON` for the configured resolution, so
`m_scaled_resolution` is `scaled(EPSILON)`. No hard stop occurs in this
constructor. -/
theorem construct_nonpositive_resolution_clamps (res : ℚ) (h : res ≤ 0) :
    PerimeterGenerator.construct res =
      { layer_id := -1, scaled_resolution := scaled EPSILON } := by
  have hlt : ¬ res > EPSILON := by
    have : (0 : ℚ) < EPSILON := by norm_num [EPSILON]
    push_neg
    exact h.trans this.le
  simp [PerimeterGenerator.construct, PerimeterGenerator.m_scaled_resolution, hlt]

/-- C2, witness for the amended theorem at `resolution = -1`. -/
theorem construct_nonpositive_resolution_clamps_witness :
    PerimeterGenerator.construct (-1) =
      { layer_id := -1, scaled_resolution := scaled EPSILON } :=
  construct_nonpositive_resolution_clamps (-1) (by norm_num)

/-- C8. `LayerToPrint::print_z()` returns the arithmetic mean of the
`print_z` values of the non-null members among `object_layer` and
`support_layer` — the value itself when only one is present, `(a + b) / 2`
when both are, hence their common height when both are present and equal —
dividing by the count of non-null members; with both members null that
divisor is zero. -/
theorem print_z_is_mean_of_nonnull_layers (l : GCode.LayerToPrint) :
    (∀ ol, l.object_layer = some ol → l.support_layer = none →
      l.print_z = ol.print_z) ∧
    (∀ sl, l.object_layer = none → l.support_layer = some sl →
      l.print_z = sl.print_z) ∧
    (∀ ol sl, l.object_layer = some ol → l.support_layer = some sl →
      l.print_z = (ol.print_z + sl.print_z) / 2 ∧
        (ol.print_z = sl.print_z → l.print_z = ol.print_z)) ∧
    (l.object_layer = none → l.support_layer = none → l.layer_count = 0) := by
  refine ⟨?_, ?_, ?_, ?_⟩
  · intro ol h1 h2
    simp [GCode.LayerToPrint.print_z, GCode.LayerToPrint.sum_z,
      GCode.LayerToPrint.layer_count, h1, h2]
  · intro sl h1 h2
    simp [GCode.LayerToPrint.print_z, GCode.LayerToPrint.sum_z,
      GCode.LayerToPrint.layer_count, h1, h2]
  · intro ol sl h1 h2
    have hpz : l.print_z = (ol.print_z + sl.print_z) / 2 := by
      simp [GCode.LayerToPrint.print_z, GCode.LayerToPrint.sum_z,
        GCode.LayerToPrint.layer_count, h1, h2]
    refine ⟨hpz, fun heq => ?_⟩
    rw [hpz, heq]
    ring
  · intro h1 h2
    simp [GCode.LayerToPrint.layer_count, h1, h2]

/-- C8, witness: both layers present at the common height 7 give
`print_z() = 7`. -/
theorem print_z_is_mean_of_nonnull_layers_witness :
    GCode.LayerToPrint.print_z
      { object_layer := some ⟨7, ⟨0⟩⟩, support_layer := some ⟨7, ⟨0⟩⟩ } = 7 := by
  have h := print_z_is_mean_of_nonnull_layers
    { object_layer := some ⟨7, ⟨0⟩⟩, support_layer := some ⟨7, ⟨0⟩⟩ }
  exact (h.2.2.1 ⟨7, ⟨0⟩⟩ ⟨7, ⟨0⟩⟩ rfl rfl).2 rfl

/-- C9. `LayerToPrint::layer()` returns `object_layer` when it is non-null,
otherwise `support_layer` (non-null or not, `nullptr` when both are
absent); and `object()` returns `nullptr` exactly when `layer()` returns
`nullptr`, so neither call dereferences a null pointer when both layers are
absent. -/
theorem layer_object_null_agreement (l : GCode.LayerToPrint) :
    (∀ ol, l.object_layer = some ol → l.layer = some ol) ∧
    (l.object_layer = none → l.layer = l.support_layer) ∧
    (l.object = none ↔ l.layer = none) := by
  obtain ⟨o, s⟩ := l
  cases o <;> cases s <;>
    simp [GCode.LayerToPrint.layer, GCode.LayerToPrint.object]

/-- C9, witness: with both members null, `layer()` and `object()` both
return `nullptr`. -/
theorem layer_object_null_agreement_witness :
    GCode.LayerToPrint.object { object_layer := none, support_layer := none } = none ∧
    GCode.LayerToPrint.layer { object_layer := none, support_layer := none } = none := by
  have h := layer_object_null_agreement { object_layer := none, support_layer := none }
  have hl : GCode.LayerToPrint.layer
      { object_layer := none, support_layer := none } = none := h.2.1 rfl
  exact ⟨h.2.2.mpr hl, hl⟩

namespace PerimeterGenerator

/-- Any two runs of the inner-wall loop from the same state produce the
same loops and residual region. -/
theorem classicRun_deterministic {inset : List Polygon → ℚ → List Polygon}
    {spacing : ℚ} {i : Nat} {region : List Polygon}
    {o₁ : List Polygon × List Polygon}
    (h₁ : ClassicRun inset spacing i region o₁) :
    ∀ o₂, ClassicRun inset spacing i region o₂ → o₁ = o₂ := by
  induction h₁ with
  | done region =>
    intro o₂ h₂
    cases h₂
    rfl
  | truncate i region hEmpty =>
    intro o₂ h₂
    cases h₂ with
    | truncate _ _ _ => rfl
    | step _ _ more residual hNonEmpty hrec =>
      simp [hEmpty] at hNonEmpty
  | step i region more residual hNonEmpty hrec ih =>
    intro o₂ h₂
    cases h₂ with
    | truncate _ _ hEmpty =>
      simp [hEmpty] at hNonEmpty
    | step _ _ more' residual' hNonEmpty' hrec' =>
      have hpair := ih _ hrec'
      simp only [Prod.mk.injEq] at hpair
      simp [hpair.1, hpair.2]

/-- The inner-wall loop relation is total: `classicLoop` realises a run. -/
theorem classicRun_classicLoop (inset : List Polygon → ℚ → List Polygon)
    (spacing : ℚ) :
    ∀ (i : Nat) (region : List Polygon),
      ClassicRun inset spacing i region (classicLoop inset spacing i region) := by
  intro i
  induction i with
  | zero =>
    intro region
    exact ClassicRun.done region
  | succ i ih =>
    intro region
    cases hE : (inset region spacing).isEmpty with
    | true =>
      simp only [classicLoop, hE, if_true]
      exact ClassicRun.truncate i region hE
    | false =>
      simp only [classicLoop, hE, if_false, Bool.false_eq_true]
      exact ClassicRun.step i region _ _ hE (ih (inset region spacing))

/-- `process_classic` realises a run of the whole classic pass. -/
theorem processClassicRun_process_classic
    (inset : List Polygon → ℚ → List Polygon) (cfg : ClassicConfig)
    (slices : List Polygon) :
    ProcessClassicRun inset cfg slices (process_classic inset cfg slices) := by
  cases hW : cfg.wall_loops with
  | zero =>
    simp only [process_classic, hW]
    exact ProcessClassicRun.zero hW
  | succ n =>
    cases hE : (inset slices cfg.ext_perimeter_spacing).isEmpty with
    | true =>
      simp only [process_classic, hW, hE, if_true]
      exact ProcessClassicRun.empty n hW hE
    | false =>
      simp only [process_classic, hW, hE, if_false, Bool.false_eq_true]
      exact ProcessClassicRun.walls n _ _ hW hE
        (classicRun_classicLoop inset cfg.perimeter_spacing n _)

/-- C6. Perimeter generation is deterministic: any two runs of
`process_classic` on identical slices and configuration (and the same
geometry kernel) produce identical results — and that common result is the
value of the `process_classic` function. The theorem is quantified over the
external wall-offsetting kernel `inset`, which is the only place where the
classic fixed-width and the arachne variable-width modes differ in this
model, so the same statement covers `process_arachne`. -/
theorem process_classic_deterministic
    (inset : List Polygon → ℚ → List Polygon) (cfg : ClassicConfig)
    (slices : List Polygon) (r₁ r₂ : ClassicResult)
    (h₁ : ProcessClassicRun inset cfg slices r₁)
    (h₂ : ProcessClassicRun inset cfg slices r₂) :
    r₁ = r₂ ∧ r₁ = process_classic inset cfg slices := by
  have det : ∀ s₁ s₂ : ClassicResult, ProcessClassicRun inset cfg slices s₁ →
      ProcessClassicRun inset cfg slices s₂ → s₁ = s₂ := by
    intro s₁ s₂ g₁ g₂
    cases g₁ with
    | zero hZero =>
      cases g₂ with
      | zero _ => rfl
      | empty _ _ _ => rfl
      | walls m more' residual' hWalls' hNonEmpty' hrun' =>
        rw [hZero] at hWalls'
        cases hWalls'
    | empty n hWalls hEmpty =>
      cases g₂ with
      | zero _ => rfl
      | empty _ _ _ => rfl
      | walls m more' residual' hWalls' hNonEmpty' hrun' =>
        simp [hEmpty] at hNonEmpty'
    | walls n more residual hWalls hNonEmpty hrun =>
      cases g₂ with
      | zero hZero =>
        rw [hZero] at hWalls
        cases hWalls
      | empty m hWalls' hEmpty' =>
        simp [hEmpty'] at hNonEmpty
      | walls m more' residual' hWalls' hNonEmpty' hrun' =>
        have hnm : n = m := by
          rw [hWalls] at hWalls'
          omega
        subst hnm
        have hpair := classicRun_deterministic hrun _ hrun'
        simp only [Prod.mk.injEq] at hpair
        simp [hpair.1, hpair.2]
  exact ⟨det r₁ r₂ h₁ h₂,
    det r₁ (process_classic inset cfg slices) h₁
      (processClassicRun_process_classic inset cfg slices)⟩

/-- C6, witness: a one-wall run on a single triangle with a kernel that
insets without emptying the region, executed twice, gives the same
result both times, namely the value of `process_classic`. -/
theorem process_classic_deterministic_witness :
    (({ loops := [[((0 : Int), (0 : Int)), (4, 0), (0, 4)]] ++ [],
        fill_surfaces := [[((0 : Int), (0 : Int)), (4, 0), (0, 4)]] } :
          ClassicResult) =
      { loops := [[((0 : Int), (0 : Int)), (4, 0), (0, 4)]] ++ [],
        fill_surfaces := [[((0 : Int), (0 : Int)), (4, 0), (0, 4)]] }) ∧
    ({ loops := [[((0 : Int), (0 : Int)), (4, 0), (0, 4)]] ++ [],
        fill_surfaces := [[((0 : Int), (0 : Int)), (4, 0), (0, 4)]] } :
          ClassicResult) =
      process_classic (fun region _ => region)
        { wall_loops := 1, ext_perimeter_spacing := 1, perimeter_spacing := 1 }
        [[((0 : Int), (0 : Int)), (4, 0), (0, 4)]] :=
  process_classic_deterministic (fun region _ => region)
    { wall_loops := 1, ext_perimeter_spacing := 1, perimeter_spacing := 1 }
    [[((0 : Int), (0 : Int)), (4, 0), (0, 4)]] _ _
    (ProcessClassicRun.walls 0 [] [[((0 : Int), (0 : Int)), (4, 0), (0, 4)]]
      rfl rfl (ClassicRun.done _))
    (ProcessClassicRun.walls 0 [] [[((0 : Int), (0 : Int)), (4, 0), (0, 4)]]
      rfl rfl (ClassicRun.done _))

end PerimeterGenerator

namespace GCode

/-- An interpolation zone eases speeds correctly: prepending the ramp of
intermediate speeds to a segment at the target speed `w` keeps every
adjacent speed difference within `d`, as long as one ramp step is within
`d`. -/
theorem smoothedFrom_ramp (d step l L : ℚ) (hstep : |step| ≤ d) :
    ∀ (k : Nat) (vp w : ℚ) (rest : List SpeedPath),
      w = vp + step * ((k : ℚ) + 1) →
      smoothedFrom d w rest →
      smoothedFrom d vp
        (((rampSpeeds step vp k).map fun v => (⟨l, v⟩ : SpeedPath)) ++
          (⟨L, w⟩ : SpeedPath) :: rest) := by
  intro k
  induction k with
  | zero =>
    intro vp w rest hw hrest
    have hd : w - vp = step := by
      rw [hw]
      push_cast
      ring
    refine ⟨?_, hrest⟩
    simpa [hd] using hstep
  | succ k ih =>
    intro vp w rest hw hrest
    refine ⟨by simpa using hstep, ?_⟩
    refine ih (vp + step) w rest ?_ hrest
    rw [hw]
    push_cast
    ring

/-- The post-smoothing invariant holds after one pass of `smooth_from`:
with a positive delta `d`, no two adjacent speeds in the output differ by
more than `d`. -/
theorem smoothedFrom_smooth_from (d maxSmooth : ℚ) (hd : 0 < d) :
    ∀ (xs : List SpeedPath) (vp : ℚ),
      smoothedFrom d vp (smooth_from d maxSmooth vp xs) := by
  intro xs
  induction xs with
  | nil =>
    intro vp
    exact trivial
  | cons q rest ih =>
    intro vp
    by_cases hle : |q.speed - vp| ≤ d
    · simp only [smooth_from]
      rw [if_pos hle]
      exact ⟨hle, ih q.speed⟩
    · simp only [smooth_from]
      rw [if_neg hle]
      have hgt : d < |q.speed - vp| := lt_of_not_le hle
      have hq0 : (0 : ℚ) < |q.speed - vp| / d := div_pos (hd.trans hgt) hd
      have hn : 0 < ⌈|q.speed - vp| / d⌉₊ := Nat.ceil_pos.mpr hq0
      have hncast : (0 : ℚ) < (⌈|q.speed - vp| / d⌉₊ : ℚ) := by
        exact_mod_cast hn
      have hstep : |(q.speed - vp) / (⌈|q.speed - vp| / d⌉₊ : ℚ)| ≤ d := by
        rw [abs_div, abs_of_pos hncast, div_le_iff₀ hncast]
        have hceil : |q.speed - vp| / d ≤ (⌈|q.speed - vp| / d⌉₊ : ℚ) :=
          Nat.le_ceil _
        calc |q.speed - vp| = |q.speed - vp| / d * d := by
              field_simp
          _ ≤ (⌈|q.speed - vp| / d⌉₊ : ℚ) * d := by
              exact mul_le_mul_of_nonneg_right hceil hd.le
          _ = d * (⌈|q.speed - vp| / d⌉₊ : ℚ) := by ring
      have hw : q.speed = vp +
          (q.speed - vp) / (⌈|q.speed - vp| / d⌉₊ : ℚ) *
            ((↑(⌈|q.speed - vp| / d⌉₊ - 1) : ℚ) + 1) := by
        have hcast : (↑(⌈|q.speed - vp| / d⌉₊ - 1) : ℚ) + 1 =
            (⌈|q.speed - vp| / d⌉₊ : ℚ) := by
          push_cast [Nat.cast_sub hn]
          ring
        rw [hcast, div_mul_cancel₀ _ (ne_of_gt hncast)]
        ring
      exact smoothedFrom_ramp d _ _ _ hstep _ vp q.speed _ hw (ih q.speed)

/-- A pass of `smooth_from` over a list already satisfying the
post-smoothing invariant changes nothing. -/
theorem smooth_from_of_smoothedFrom (d maxSmooth : ℚ) :
    ∀ (xs : List SpeedPath) (vp : ℚ),
      smoothedFrom d vp xs → smooth_from d maxSmooth vp xs = xs := by
  intro xs
  induction xs with
  | nil =>
    intro vp _
    rfl
  | cons q rest ih =>
    intro vp h
    simp only [smooth_from]
    rw [if_pos h.1, ih q.speed h.2]

/-- C7. Speed shaping is deterministic and idempotent: with a positive
smoothing delta, `smooth_speed_discontinuity_area` applied to an
already-smoothed path list leaves it unchanged — in particular a second
application is the identity on the first application's output — and two
runs on identical inputs produce identical outputs. -/
theorem smooth_speed_idempotent_deterministic (d maxSmooth : ℚ) (hd : 0 < d)
    (xs ys : List SpeedPath) :
    smooth_speed_discontinuity_area d maxSmooth
        (smooth_speed_discontinuity_area d maxSmooth xs) =
      smooth_speed_discontinuity_area d maxSmooth xs ∧
    (xs = ys → smooth_speed_discontinuity_area d maxSmooth xs =
      smooth_speed_discontinuity_area d maxSmooth ys) := by
  constructor
  · cases xs with
    | nil => rfl
    | cons p rest =>
      simp only [smooth_speed_discontinuity_area]
      rw [smooth_from_of_smoothedFrom d maxSmooth _ p.speed
        (smoothedFrom_smooth_from d maxSmooth hd rest p.speed)]
  · intro h
    rw [h]

/-- C7, witness: delta 1, a discontinuity of 3 between two paths; the
smoothed list is a fixed point of a second pass, and equal inputs give
equal outputs. -/
theorem smooth_speed_idempotent_deterministic_witness :
    smooth_speed_discontinuity_area 1 1
        (smooth_speed_discontinuity_area 1 1
          [(⟨4, 0⟩ : SpeedPath), ⟨10, 3⟩]) =
      smooth_speed_discontinuity_area 1 1 [(⟨4, 0⟩ : SpeedPath), ⟨10, 3⟩] ∧
    ([(⟨4, 0⟩ : SpeedPath), ⟨10, 3⟩] = [(⟨4, 0⟩ : SpeedPath), ⟨10, 3⟩] →
      smooth_speed_discontinuity_area 1 1 [(⟨4, 0⟩ : SpeedPath), ⟨10, 3⟩] =
        smooth_speed_discontinuity_area 1 1 [(⟨4, 0⟩ : SpeedPath), ⟨10, 3⟩]) :=
  smooth_speed_idempotent_deterministic 1 1 (by norm_num)
    [(⟨4, 0⟩ : SpeedPath), ⟨10, 3⟩] [(⟨4, 0⟩ : SpeedPath), ⟨10, 3⟩]

end GCode

end Slic3r
